import Mathlib

/-!
Shallow embedding of the relay-session core of the `flo` game-traffic proxy
(`src/crates/client/src/lan/game/game.rs`), together with theorems checking
the natural-language specification against it.

Chat command texts are modelled as lists of UTF-8 bytes (`List Nat`, each
entry < 256), because the source slices command strings at fixed *byte*
indices (`&cmd["mute ".len()..]`), an operation that panics in Rust when the
index is not a UTF-8 character boundary.  Panicking computations are
modelled with `Option` (`none` = panic).  Fallible operations (packet
decoding) are modelled with `Except`.  The run loop is embedded twice:
once with transport operations abstracted as always-successful effects
(for the routing, ordering and counter properties), and once with every
`?`-awaited send, flush and encode operation fallible, its outcome drawn
from an explicit environment list (for the error-surface properties).
-/

/-- One UTF-8 byte of a Unicode scalar value, following the standard
encoding; used to turn Lean string literals into the byte lists the
embedding works over. -/
def utf8EncodeChar (c : Nat) : List Nat :=
  if c < 0x80 then [c]
  else if c < 0x800 then
    [0xC0 ||| (c >>> 6), 0x80 ||| (c &&& 0x3F)]
  else if c < 0x10000 then
    [0xE0 ||| (c >>> 12), 0x80 ||| ((c >>> 6) &&& 0x3F), 0x80 ||| (c &&& 0x3F)]
  else
    [0xF0 ||| (c >>> 18), 0x80 ||| ((c >>> 12) &&& 0x3F),
     0x80 ||| ((c >>> 6) &&& 0x3F), 0x80 ||| (c &&& 0x3F)]

/-- UTF-8 bytes of a string. -/
def strBytes (s : String) : List Nat :=
  s.data.flatMap (fun ch => utf8EncodeChar ch.toNat)

/-- Strip, from a *reversed* byte list, the reversed UTF-8 encodings of the
Unicode `White_Space` code points (the set used by Rust's
`str::trim_end`): U+0009..U+000D, U+0020, U+0085, U+00A0, U+1680,
U+2000..U+200A, U+2028, U+2029, U+202F, U+205F, U+3000. -/
def stripWsRev : List Nat → List Nat
  | 0x09 :: r => stripWsRev r
  | 0x0A :: r => stripWsRev r
  | 0x0B :: r => stripWsRev r
  | 0x0C :: r => stripWsRev r
  | 0x0D :: r => stripWsRev r
  | 0x20 :: r => stripWsRev r
  | 0x85 :: 0xC2 :: r => stripWsRev r
  | 0xA0 :: 0xC2 :: r => stripWsRev r
  | 0x80 :: 0x9A :: 0xE1 :: r => stripWsRev r
  | b :: 0x80 :: 0xE2 :: r =>
    if (0x80 ≤ b && b ≤ 0x8A) || b = 0xA8 || b = 0xA9 || b = 0xAF then stripWsRev r
    else b :: 0x80 :: 0xE2 :: r
  | 0x9F :: 0x81 :: 0xE2 :: r => stripWsRev r
  | 0x80 :: 0x80 :: 0xE3 :: r => stripWsRev r
  | l => l

/-- Rust `str::trim_end` on UTF-8 bytes: drop the longest trailing run of
whitespace characters. -/
def trimEnd (bytes : List Nat) : List Nat :=
  (stripWsRev bytes.reverse).reverse

/-- A UTF-8 continuation byte (`0x80..=0xBF`); in a valid UTF-8 string a
byte index is a character boundary exactly when it is not sitting on a
continuation byte. -/
def isUtf8Cont (b : Nat) : Bool :=
  0x80 ≤ b && b < 0xC0

/-- Rust byte slicing `&s[n..]` on a `str`: returns the suffix, or `none`
(a panic) when `n` is past the end or not a character boundary. -/
def sliceFrom (n : Nat) (s : List Nat) : Option (List Nat) :=
  if n = s.length then some []
  else if h : n < s.length then
    if isUtf8Cont (s.get ⟨n, h⟩) then none else some (s.drop n)
  else none

/-- Rust `str::parse::<u8>`: an optional leading `+`, then one or more
ASCII digits, value at most 255; anything else fails. -/
def parseU8 (s : List Nat) : Option Nat :=
  let ds := match s with
    | 0x2B :: rest => rest
    | _ => s
  if ds.isEmpty then none
  else if ds.all (fun b => 0x30 ≤ b && b ≤ 0x39) then
    let v := ds.foldl (fun acc b => acc * 10 + (b - 0x30)) 0
    if v ≤ 255 then some v else none
  else none

/-- Bytes of the keyword `help`. -/
def helpBytes : List Nat := [0x68, 0x65, 0x6C, 0x70]

/-- Bytes of the keyword `flo`. -/
def floBytes : List Nat := [0x66, 0x6C, 0x6F]

/-- Bytes of the keyword `tick`. -/
def tickBytes : List Nat := [0x74, 0x69, 0x63, 0x6B]

/-- Bytes of the keyword `muteall`. -/
def muteallBytes : List Nat := [0x6D, 0x75, 0x74, 0x65, 0x61, 0x6C, 0x6C]

/-- Bytes of the keyword `unmuteall`. -/
def unmuteallBytes : List Nat := [0x75, 0x6E, 0x6D, 0x75, 0x74, 0x65, 0x61, 0x6C, 0x6C]

/-- Bytes of the keyword `mute`. -/
def muteBytes : List Nat := [0x6D, 0x75, 0x74, 0x65]

/-- Bytes of the keyword `unmute`. -/
def unmuteBytes : List Nat := [0x75, 0x6E, 0x6D, 0x75, 0x74, 0x65]

/-! ## Packet type tags

Numeric W3GS packet type identifiers (`PACKET_TYPE_ID` constants of
`flo_w3gs`); the session code only compares them for equality, so only
their pairwise distinctness matters here. -/

def leaveAckTypeId : Nat := 0x1B

def chatToHostTypeId : Nat := 0x28

def chatFromHostTypeId : Nat := 0x0F

def incomingActionTypeId : Nat := 0x0C

def outgoingActionTypeId : Nat := 0x26

def outgoingKeepAliveTypeId : Nat := 0x27

/-! ## Session data model

The immutable per-session descriptors (`LanGameInfo`, `NodeInfo` and their
components) are external types of the repository; the fields modelled here
are exactly the ones `GameHandler` reads. -/

/-- One entry of `slot_info.player_infos`: a player occupying a slot. -/
structure PlayerInfo where
  slot_player_id : Nat
  name : String
deriving DecidableEq

/-- The slot information of `LanGameInfo`: the local player's own slot
player id plus the list of all players. -/
structure LanSlotInfo where
  slot_player_id : Nat
  player_infos : List PlayerInfo
deriving DecidableEq

/-- A player occupying a game slot (used by the `flo` command listing). -/
structure SlotPlayer where
  name : String
deriving DecidableEq

/-- Per-slot settings (used by the `flo` command listing); `race` stands
for the debug rendering of the race enum. -/
structure SlotSettings where
  team : Nat
  race : String
deriving DecidableEq

/-- One slot of the game descriptor. -/
structure GameSlot where
  player : Option SlotPlayer
  settings : SlotSettings
deriving DecidableEq

/-- The game descriptor fields read by the session. -/
structure GameDescriptor where
  name : String
  game_id : Nat
  slots : List GameSlot
deriving DecidableEq

/-- Source `LanGameInfo`: game descriptor plus slot information. -/
structure LanGameInfo where
  game : GameDescriptor
  slot_info : LanSlotInfo
deriving DecidableEq

/-- Source `NodeInfo` fields read by the `flo` command. -/
structure NodeInfo where
  id : Nat
  name : String
  location : String
  country_id : String
deriving DecidableEq

/-- The chat message carried by a `ChatToHost` / `ChatFromHost` packet:
either scoped (restricted audience) chat text, broadcast chat text, or one
of the non-text variants (team/colour/race/handicap changes), which the
session never inspects further. -/
inductive ChatMessage where
  | scoped (scope : Nat) (message : List Nat)
  | chat (message : List Nat)
  | other
deriving DecidableEq

/-- The decoded body shared by `ChatToHost` and `ChatFromHost` packets;
only the fields the session reads (`from_player`, `message`) are kept. -/
structure ChatBody where
  from_player : Nat
  message : ChatMessage
deriving DecidableEq

/-- A packet payload: either bytes that decode as a chat body, or opaque
bytes on which a chat decode attempt fails. -/
inductive Payload where
  | chat (body : ChatBody)
  | raw (bytes : List Nat)
deriving DecidableEq

/-- A typed frame: numeric type tag plus payload. -/
structure Packet where
  typeId : Nat
  payload : Payload
deriving DecidableEq

/-- Rust `decode_simple::<ChatToHost>` / `::<ChatFromHost>`: succeeds exactly
when the payload carries a chat body. -/
def decodeChat (p : Packet) : Option ChatBody :=
  match p.payload with
  | Payload.chat body => some body
  | Payload.raw _ => none

/-- The packet produced by `Packet::simple(LeaveAck)`; its payload is
empty and never decoded. -/
def leaveAckPacket : Packet :=
  { typeId := leaveAckTypeId, payload := Payload.raw [] }

/-- The mutable state of `GameHandler` together with its immutable
descriptors.  The stream/channel fields of the Rust struct are
externalized into the event trace and effect list of `runLoop`. -/
structure GHState where
  info : LanGameInfo
  node : NodeInfo
  tick_recv : Nat
  tick_ack : Nat
  muted_players : Finset Nat
deriving DecidableEq

/-- Source `GameHandler::new`: counters start at zero, no player muted. -/
def initialState (info : LanGameInfo) (node : NodeInfo) : GHState :=
  { info := info, node := node, tick_recv := 0, tick_ack := 0, muted_players := ∅ }

/-! ## Chat command interpreter (`handle_chat_command`) -/

/-- The fixed reply of the `help` command. -/
def helpMessages : List String :=
  ["Chat commands:",
   " !flo: print game information.",
   " !muteall: Mute all players.",
   " !unmuteall: Mute all players.",
   " !mute: Mute your opponent (1v1), or display a player list.",
   " !mute <ID>: Mute a player.",
   " !unmute: Unmute your opponent (1v1), or display a player list.",
   " !unmute <ID>: Unmute a player."]

/-- The reply of the `flo` command: game line, server line, then one line
per occupied slot. -/
def floMessages (s : GHState) : List String :=
  ["Game: " ++ s.info.game.name ++ " (#" ++ toString s.info.game.game_id ++ ")",
   "Server: " ++ s.node.name ++ ", " ++ s.node.location ++ ", " ++ s.node.country_id
     ++ " (#" ++ toString s.node.id ++ ")",
   "Players:"]
  ++ s.info.game.slots.filterMap (fun slot =>
       slot.player.map (fun player =>
         "  " ++ player.name ++ ": Team " ++ toString slot.settings.team
           ++ ", " ++ slot.settings.race))

/-- Targets of `muteall`: every player's slot id except the local player's. -/
def muteallTargets (s : GHState) : List Nat :=
  s.info.slot_info.player_infos.filterMap (fun slot =>
    if slot.slot_player_id = s.info.slot_info.slot_player_id then none
    else some slot.slot_player_id)

/-- Candidates of `mute`: other players that are not currently muted, in
roster order, with their names. -/
def muteTargets (s : GHState) : List (Nat × String) :=
  s.info.slot_info.player_infos.filterMap (fun slot =>
    if slot.slot_player_id = s.info.slot_info.slot_player_id then none
    else if slot.slot_player_id ∈ s.muted_players then none
    else some (slot.slot_player_id, slot.name))

/-- Candidates of `unmute`: currently muted ids (in the `BTreeSet` ascending
order) other than the local player that resolve to a roster
entry, with their names. -/
def unmuteTargets (s : GHState) : List (Nat × String) :=
  (s.muted_players.sort (· ≤ ·)).filterMap (fun id =>
    if id = s.info.slot_info.slot_player_id then none
    else (s.info.slot_info.player_infos.find? (fun info => info.slot_player_id == id)).map
           (fun info => (info.slot_player_id, info.name)))

/-- Search `.find(|info| info.slot_player_id == id)` over the roster. -/
def findPlayer (s : GHState) (id : Nat) : Option PlayerInfo :=
  s.info.slot_info.player_infos.find? (fun info => info.slot_player_id == id)

/-- A header line followed by one ` ID=<id> <name>` line per candidate. -/
def candidateLines (hd : String) (targets : List (Nat × String)) : List String :=
  hd :: targets.map (fun t => " ID=" ++ toString t.1 ++ " " ++ t.2)

/-- Source `GameHandler::handle_chat_command`: pure over the session state and
the command bytes; returns the updated state and the single batch of
private reply texts passed to `send_chats_to_self`, or `none` when the
byte slicing of the id argument panics. -/
def handle_chat_command (s : GHState) (cmd : List Nat) : Option (GHState × List String) :=
  let t := trimEnd cmd
  if t = helpBytes then some (s, helpMessages)
  else if t = floBytes then some (s, floMessages s)
  else if t = tickBytes then
    some (s, ["tick_recv = " ++ toString s.tick_recv ++ ", tick_ack = " ++ toString s.tick_ack])
  else if t = muteallBytes then
    some ({ s with muted_players := (muteallTargets s).foldl (fun m id => insert id m) s.muted_players },
          ["All players muted."])
  else if t = unmuteallBytes then
    some ({ s with muted_players := ∅ }, ["All players un-muted."])
  else if List.isPrefixOf muteBytes t then
    let targets := muteTargets s
    if t = muteBytes then
      match targets with
      | [] => some (s, ["You have silenced all the players."])
      | [tgt] =>
        some ({ s with muted_players := insert tgt.1 s.muted_players }, ["Muted: " ++ tgt.2])
      | _ => some (s, candidateLines ("Type `!mute <ID>` to mute a player:") targets)
    else
      match sliceFrom 5 t with
      | none => none
      | some rest =>
        match parseU8 rest with
        | some id =>
          match findPlayer s id with
          | some info =>
            some ({ s with muted_players := insert id s.muted_players }, ["Muted: " ++ info.name])
          | none => some (s, candidateLines ("Invalid player id. Players:") targets)
        | none => some (s, ["Invalid syntax. Example: !mute 1"])
  else if List.isPrefixOf unmuteBytes t then
    let targets := unmuteTargets s
    if t = unmuteBytes then
      match targets with
      | [] => some (s, ["No player to unmute."])
      | [tgt] =>
        some ({ s with muted_players := s.muted_players.erase tgt.1 }, ["Un-muted: " ++ tgt.2])
      | _ => some (s, candidateLines ("Type `!unmute <ID>` to unmute a player:") targets)
    else
      match sliceFrom 7 t with
      | none => none
      | some rest =>
        match parseU8 rest with
        | some id =>
          match targets.find? (fun tgt => tgt.1 == id) with
          | some tgt =>
            some ({ s with muted_players := s.muted_players.erase id }, ["Un-muted: " ++ tgt.2])
          | none => some (s, candidateLines ("Invalid player id. Muted players:") targets)
        | none => some (s, ["Invalid syntax. Example: !unmute 1"])
  else some (s, ["Unknown command"])

/-! ## Relay session run loop -/

/-- Modelled from the spec: the slot client status values of `flo-types`
are not part of the provided sources; the session only ever reports the
"Left" status, which is the only variant modelled. -/
inductive SlotClientStatus where
  | Left
deriving DecidableEq

/-- The errors the embedded session can return to its caller:
`taskCancelled` models `Error::TaskCancelled` (an internal coordinating
channel lost its producer), `decodeFailed` models the error propagated
by a failing `decode_simple()?`, and `sendFailed` models an error
propagated by `?` from one of the transport or encode operations (a
stream send or flush, or `Packet::simple`), carrying an opaque code that
identifies the underlying failure supplied by the environment. -/
inductive SessionError where
  | taskCancelled (msg : String)
  | decodeFailed
  | sendFailed (code : Nat)
deriving DecidableEq

/-- `GameResult`: the normal terminal outcomes of the session. -/
inductive GameResult where
  | Disconnected
  | Leave
deriving DecidableEq

/-- The observable actions the session performs on its collaborators:
status reports to the node, sends/flushes on the local-client stream,
sends to the node stream, and the detached task spawned by
`send_chats_to_self` carrying one batch of private replies. -/
inductive Effect where
  | reportSlotStatus (status : SlotClientStatus)
  | sendLocal (p : Packet)
  | flushLocal
  | sendNode (p : Packet)
  | spawnChats (player_id : Nat) (messages : List String)
deriving DecidableEq

/-- One readiness outcome of the three-way `tokio::select!`: a frame,
close or error on the local-client stream; a status-channel value or the
status channel closing; a node frame or the node channel closing.  The
select's nondeterministic servicing order is externalized into the order
of the event trace. -/
inductive Event where
  | localPkt (p : Packet)
  | localClosed
  | localErr
  | statusUpdate (status : Option Nat)
  | statusClosed
  | nodePkt (p : Packet)
  | nodeClosed
deriving DecidableEq

/-- How a finite event trace leaves the session: still in the loop,
a normal `GameResult`, an error returned to the caller, or a panic. -/
inductive Outcome where
  | running (s : GHState)
  | result (r : GameResult)
  | failed (e : SessionError)
  | panicked
deriving DecidableEq

/-- Modelled from the spec: `parse_chat_command` of `flo_util::chat` is
not part of the provided sources; per the spec's scenarios (scoped chat
"!mute 7" reaching the interpreter as the command `mute 7`), it
recognizes a leading `!` and yields the remaining text. -/
def parse_chat_command (bytes : List Nat) : Option (List Nat) :=
  match bytes with
  | 0x21 :: rest => some rest
  | _ => none

/-- Source `GameHandler::handle_incoming_w3gs`: a frame arriving from the node.
Keepalive and action frames adjust `tick_recv` as in the source;
`ChatFromHost` frames are decoded only when `muted_players` is non-empty
and dropped when they carry scoped chat from a muted player; everything
else is forwarded to the local client. -/
def handle_incoming_w3gs (s : GHState) (p : Packet) :
    Except SessionError (GHState × List Effect) :=
  if p.typeId = outgoingKeepAliveTypeId then Except.ok (s, [Effect.sendLocal p])
  else if p.typeId = incomingActionTypeId then
    Except.ok ({ s with tick_recv := s.tick_recv + 1 }, [Effect.sendLocal p])
  else if p.typeId = outgoingActionTypeId then Except.ok (s, [Effect.sendLocal p])
  else if p.typeId = chatFromHostTypeId then
    if s.muted_players = ∅ then Except.ok (s, [Effect.sendLocal p])
    else
      match decodeChat p with
      | none => Except.error SessionError.decodeFailed
      | some body =>
        match body.message with
        | ChatMessage.scoped _ _ =>
          if body.from_player ∈ s.muted_players then Except.ok (s, [])
          else Except.ok (s, [Effect.sendLocal p])
        | _ => Except.ok (s, [Effect.sendLocal p])
  else Except.ok (s, [Effect.sendLocal p])

/-- Source `GameHandler::handle_game_packet`: a frame arriving from the local
client.  Scoped chat that parses as a command runs the interpreter and is
not forwarded (`none` = the interpreter panicked); keepalive
acknowledgements bump `tick_ack`; everything else is forwarded to the
node. -/
def handle_game_packet (s : GHState) (p : Packet) :
    Option (Except SessionError (GHState × List Effect)) :=
  if p.typeId = chatToHostTypeId then
    match decodeChat p with
    | none => some (Except.error SessionError.decodeFailed)
    | some body =>
      match body.message with
      | ChatMessage.scoped _ text =>
        match parse_chat_command text with
        | some cmd =>
          match handle_chat_command s cmd with
          | some (s', msgs) =>
            some (Except.ok (s', [Effect.spawnChats s.info.slot_info.slot_player_id msgs]))
          | none => none
        | none => some (Except.ok (s, [Effect.sendNode p]))
      | _ => some (Except.ok (s, [Effect.sendNode p]))
  else if p.typeId = outgoingKeepAliveTypeId then
    some (Except.ok ({ s with tick_ack := s.tick_ack + 1 }, [Effect.sendNode p]))
  else if p.typeId = incomingActionTypeId then some (Except.ok (s, [Effect.sendNode p]))
  else if p.typeId = outgoingActionTypeId then some (Except.ok (s, [Effect.sendNode p]))
  else some (Except.ok (s, [Effect.sendNode p]))

/-- Source `GameHandler::run`: fold the session over a finite trace of select
outcomes, accumulating the effects performed.  A local `LeaveAck` frame
performs the leave handshake and terminates with `Leave`; loss of the
local stream terminates with `Disconnected`; loss of a channel producer
fails with `TaskCancelled`; status values are only logged.  This variant
abstracts the transport operations as always-successful effects, which is
adequate for the routing, ordering and counter properties; the error
behaviour of the `?`-awaited send, flush and encode operations is
modelled separately by `runLoopFallible` below, which the error-surface
theorems are stated against. -/
def runLoop (s : GHState) : List Event → Outcome × List Effect
  | [] => (Outcome.running s, [])
  | Event.localPkt p :: rest =>
    if p.typeId = leaveAckTypeId then
      (Outcome.result GameResult.Leave,
       [Effect.reportSlotStatus SlotClientStatus.Left,
        Effect.sendLocal leaveAckPacket, Effect.flushLocal])
    else
      match handle_game_packet s p with
      | none => (Outcome.panicked, [])
      | some (Except.error e) => (Outcome.failed e, [])
      | some (Except.ok (s', eff)) =>
        let r := runLoop s' rest
        (r.1, eff ++ r.2)
  | Event.localClosed :: _ => (Outcome.result GameResult.Disconnected, [])
  | Event.localErr :: _ => (Outcome.result GameResult.Disconnected, [])
  | Event.statusUpdate _ :: rest => runLoop s rest
  | Event.statusClosed :: _ =>
    (Outcome.failed (SessionError.taskCancelled ("game status tx dropped")), [])
  | Event.nodePkt p :: rest =>
    match handle_incoming_w3gs s p with
    | Except.error e => (Outcome.failed e, [])
    | Except.ok (s', eff) =>
      let r := runLoop s' rest
      (r.1, eff ++ r.2)
  | Event.nodeClosed :: _ =>
    (Outcome.failed (SessionError.taskCancelled ("w3g tx dropped")), [])

/-- Fold the chat command interpreter over a list of commands, stopping
at a panic. -/
def runChatCommands (s : GHState) : List (List Nat) → Option GHState
  | [] => some s
  | c :: cs =>
    match handle_chat_command s c with
    | some (s', _) => runChatCommands s' cs
    | none => none

/-! ## Run loop with fallible transport operations

The source awaits several fallible operations with `?`: the local
stream's `send` and `flush`, the node stream's `send_w3gs`, and the
`Packet::simple(LeaveAck)` encode (the `report_slot_status` call is also
fallible but its result is discarded with `.ok()`).  Their outcomes
depend on the transport environment, externalized here as a list of
per-operation outcomes consumed in program order: `none` is success,
`some code` is a failure carrying an opaque error code. -/

/-- One fallible `?`-awaited operation: consume the next environment
outcome and either continue with the remaining outcomes or abort with
the corresponding send error.  An exhausted outcome list means the
operation succeeds. -/
def fallibleOp (outs : List (Option Nat)) : Except SessionError (List (Option Nat)) :=
  match outs with
  | [] => Except.ok []
  | none :: rest => Except.ok rest
  | some code :: _ => Except.error (SessionError.sendFailed code)

/-- Source `GameHandler::handle_game_packet` with its trailing
`node_stream.send_w3gs(pkt).await?` fallible: returns `none` when the
interpreter panicked, otherwise the session-level result paired with the
unconsumed operation outcomes.  A recognized chat command returns before
the send and consumes no outcome. -/
def handle_game_packet_fallible (s : GHState) (p : Packet) (outs : List (Option Nat)) :
    Option (Except SessionError (GHState × List (Option Nat))) :=
  if p.typeId = chatToHostTypeId then
    match decodeChat p with
    | none => some (Except.error SessionError.decodeFailed)
    | some body =>
      match body.message with
      | ChatMessage.scoped _ text =>
        match parse_chat_command text with
        | some cmd =>
          match handle_chat_command s cmd with
          | some (s', _) => some (Except.ok (s', outs))
          | none => none
        | none => some ((fallibleOp outs).map (fun o => (s, o)))
      | _ => some ((fallibleOp outs).map (fun o => (s, o)))
  else if p.typeId = outgoingKeepAliveTypeId then
    some ((fallibleOp outs).map (fun o => ({ s with tick_ack := s.tick_ack + 1 }, o)))
  else if p.typeId = incomingActionTypeId then
    some ((fallibleOp outs).map (fun o => (s, o)))
  else if p.typeId = outgoingActionTypeId then
    some ((fallibleOp outs).map (fun o => (s, o)))
  else some ((fallibleOp outs).map (fun o => (s, o)))

/-- Source `GameHandler::handle_incoming_w3gs` with its trailing
`w3gs_stream.send(pkt).await?` fallible.  The muted-drop path returns
before the send and consumes no outcome. -/
def handle_incoming_w3gs_fallible (s : GHState) (p : Packet) (outs : List (Option Nat)) :
    Except SessionError (GHState × List (Option Nat)) :=
  if p.typeId = outgoingKeepAliveTypeId then (fallibleOp outs).map (fun o => (s, o))
  else if p.typeId = incomingActionTypeId then
    (fallibleOp outs).map (fun o => ({ s with tick_recv := s.tick_recv + 1 }, o))
  else if p.typeId = outgoingActionTypeId then (fallibleOp outs).map (fun o => (s, o))
  else if p.typeId = chatFromHostTypeId then
    if s.muted_players = ∅ then (fallibleOp outs).map (fun o => (s, o))
    else
      match decodeChat p with
      | none => Except.error SessionError.decodeFailed
      | some body =>
        match body.message with
        | ChatMessage.scoped _ _ =>
          if body.from_player ∈ s.muted_players then Except.ok (s, outs)
          else (fallibleOp outs).map (fun o => (s, o))
        | _ => (fallibleOp outs).map (fun o => (s, o))
  else (fallibleOp outs).map (fun o => (s, o))

/-- Source `GameHandler::run` with every `?`-awaited operation fallible.
The leave handshake consumes, in program order: the ignored
`report_slot_status(Left)` outcome (dropped with `.ok()` in the source,
hence `List.tail`), then the `Packet::simple(LeaveAck)?` encode, the
`send` and the `flush`, each of which aborts the session with its error
on failure. -/
def runLoopFallible (s : GHState) : List Event → List (Option Nat) → Outcome
  | [], _ => Outcome.running s
  | Event.localPkt p :: rest, outs =>
    if p.typeId = leaveAckTypeId then
      match fallibleOp outs.tail with
      | Except.error e => Outcome.failed e
      | Except.ok o2 =>
        match fallibleOp o2 with
        | Except.error e => Outcome.failed e
        | Except.ok o3 =>
          match fallibleOp o3 with
          | Except.error e => Outcome.failed e
          | Except.ok _ => Outcome.result GameResult.Leave
    else
      match handle_game_packet_fallible s p outs with
      | none => Outcome.panicked
      | some (Except.error e) => Outcome.failed e
      | some (Except.ok (s', outs')) => runLoopFallible s' rest outs'
  | Event.localClosed :: _, _ => Outcome.result GameResult.Disconnected
  | Event.localErr :: _, _ => Outcome.result GameResult.Disconnected
  | Event.statusUpdate _ :: rest, outs => runLoopFallible s rest outs
  | Event.statusClosed :: _, _ =>
    Outcome.failed (SessionError.taskCancelled ("game status tx dropped"))
  | Event.nodePkt p :: rest, outs =>
    match handle_incoming_w3gs_fallible s p outs with
    | Except.error e => Outcome.failed e
    | Except.ok (s', outs') => runLoopFallible s' rest outs'
  | Event.nodeClosed :: _, _ =>
    Outcome.failed (SessionError.taskCancelled ("w3g tx dropped"))

/-! ## Concrete fixtures used by witnesses and counterexamples -/

/-- A two-player roster: the local player `Alice` (slot player id 1) and
her opponent `Bob` (slot player id 2). -/
def roster2 : List PlayerInfo :=
  [{ slot_player_id := 1, name := "Alice" }, { slot_player_id := 2, name := "Bob" }]

/-- Game info for the two-player roster, local player id 1. -/
def info2 : LanGameInfo :=
  { game := { name := "g", game_id := 7, slots := [] },
    slot_info := { slot_player_id := 1, player_infos := roster2 } }

/-- A concrete node descriptor. -/
def node0 : NodeInfo := { id := 3, name := "n", location := "l", country_id := "c" }

/-- The freshly constructed session state over the two-player roster. -/
def st2 : GHState := initialState info2 node0

/-! ## Helper lemmas -/

/-- The id is the slot player id of some roster entry. -/
def inRoster (s : GHState) (id : Nat) : Prop :=
  ∃ pi ∈ s.info.slot_info.player_infos, pi.slot_player_id = id

/-- Predicate for a scoped (restricted-audience) chat message, mirroring
the `ChatMessage::Scoped { .. }` pattern of the source. -/
def ChatMessage.isScoped : ChatMessage → Bool
  | ChatMessage.scoped _ _ => true
  | _ => false

deriving instance DecidableEq for Except

/-- The two-player session state with the opponent Bob (id 2) muted. -/
def st2m : GHState :=
  { info := info2, node := node0, tick_recv := 0, tick_ack := 0, muted_players := {2} }

/-- The two-player session state with the local player herself (id 1)
muted. -/
def st2mutedSelf : GHState :=
  { info := info2, node := node0, tick_recv := 0, tick_ack := 0, muted_players := {1} }

/-- The two-player session state after one keepalive acknowledgement. -/
def st2ka : GHState :=
  { info := info2, node := node0, tick_recv := 0, tick_ack := 1, muted_players := ∅ }

/-- A keepalive-acknowledgement frame from the local client. -/
def kaPacket : Packet := { typeId := outgoingKeepAliveTypeId, payload := Payload.raw [] }

/-- A scoped chat body sent by player 2. -/
def cfhBody : ChatBody := { from_player := 2, message := ChatMessage.scoped 0 (strBytes ("hi")) }

/-- A `ChatFromHost` frame carrying scoped chat from player 2. -/
def cfhPacket : Packet := { typeId := chatFromHostTypeId, payload := Payload.chat cfhBody }

/-- A scoped `ChatToHost` frame whose text is the unrecognized command
"!hello". -/
def unknownCmdPacket : Packet :=
  { typeId := chatToHostTypeId,
    payload := Payload.chat { from_player := 1, message := ChatMessage.scoped 0 (strBytes ("!hello")) } }

/-- A `ChatToHost`-typed frame whose payload fails to decode. -/
def badChatPacket : Packet := { typeId := chatToHostTypeId, payload := Payload.raw [0] }


theorem foldl_insert_eq_union (l : List Nat) (m : Finset Nat) :
    l.foldl (fun m id => insert id m) m = m ∪ l.toFinset := by
  induction l generalizing m with
  | nil => simp
  | cons a l ih =>
    simp [List.foldl_cons, ih, Finset.insert_union, Finset.union_insert]

theorem mem_muteallTargets (s : GHState) (id : Nat) (h : id ∈ muteallTargets s) :
    inRoster s id := by
  simp only [muteallTargets, List.mem_filterMap] at h
  obtain ⟨pi, hpi, hf⟩ := h
  refine ⟨pi, hpi, ?_⟩
  by_cases hc : pi.slot_player_id = s.info.slot_info.slot_player_id <;> simp [hc] at hf
  exact hf

theorem mem_muteTargets (s : GHState) (t : Nat × String) (h : t ∈ muteTargets s) :
    inRoster s t.1 := by
  simp only [muteTargets, List.mem_filterMap] at h
  obtain ⟨pi, hpi, hf⟩ := h
  refine ⟨pi, hpi, ?_⟩
  by_cases hc : pi.slot_player_id = s.info.slot_info.slot_player_id <;>
    by_cases hm : pi.slot_player_id ∈ s.muted_players <;> simp [hc, hm] at hf
  simp [← hf]

theorem findPlayer_some (s : GHState) (id : Nat) (info : PlayerInfo)
    (h : findPlayer s id = some info) :
    info ∈ s.info.slot_info.player_infos ∧ info.slot_player_id = id := by
  unfold findPlayer at h
  refine ⟨List.mem_of_find?_eq_some h, ?_⟩
  have := List.find?_some h
  simpa using this

theorem handle_chat_command_state (s : GHState) (cmd : List Nat) (s' : GHState)
    (msgs : List String) (h : handle_chat_command s cmd = some (s', msgs)) :
    s'.info = s.info ∧ s'.node = s.node ∧ s'.tick_recv = s.tick_recv ∧
      s'.tick_ack = s.tick_ack ∧
      ∀ id ∈ s'.muted_players, id ∈ s.muted_players ∨ inRoster s id := by
  unfold handle_chat_command at h
  simp only [] at h
  repeat' split at h
  all_goals (try cases h)
  all_goals refine ⟨rfl, rfl, rfl, rfl, fun pid hpid => ?_⟩
  all_goals try exact Or.inl hpid
  all_goals try exact Or.inl (Finset.mem_of_mem_erase hpid)
  all_goals try exact absurd hpid (Finset.not_mem_empty pid)
  -- muteall: the new set is the old one unioned with the muteall targets
  · simp only [foldl_insert_eq_union, Finset.mem_union, List.mem_toFinset] at hpid
    exact hpid.imp (fun h1 => h1) (mem_muteallTargets s pid)
  -- no-argument mute with a single candidate
  · rename_i tgt heq
    simp only [Finset.mem_insert] at hpid
    rcases hpid with h1 | h2
    · subst h1
      exact Or.inr (mem_muteTargets s tgt (by rw [heq]; exact List.mem_singleton_self tgt))
    · exact Or.inl h2
  -- mute <id> with the id found in the roster
  · rename_i idv heqp x info heq
    simp only [Finset.mem_insert] at hpid
    rcases hpid with h1 | h2
    · subst h1
      obtain ⟨hmem, hideq⟩ := findPlayer_some s pid info heq
      exact Or.inr ⟨info, hmem, hideq⟩
    · exact Or.inl h2

/-- Replacing the mute set leaves the `muteall` targets unchanged: they
are computed from the immutable roster only. -/
theorem muteallTargets_congr (s : GHState) (m : Finset Nat) :
    muteallTargets { s with muted_players := m } = muteallTargets s := rfl

/-- Evaluation of the `muteall` arm: the mute set is extended with every
other player's slot id. -/
theorem handle_muteall (s : GHState) :
    handle_chat_command s muteallBytes =
      some ({ s with muted_players := s.muted_players ∪ (muteallTargets s).toFinset },
            ["All players muted."]) := by
  have ht : trimEnd muteallBytes = muteallBytes := by decide
  unfold handle_chat_command
  simp [ht, foldl_insert_eq_union]
  rw [if_neg (by decide), if_neg (by decide), if_neg (by decide)]

/-- Evaluation of the `unmuteall` arm: the mute set is cleared. -/
theorem handle_unmuteall (s : GHState) :
    handle_chat_command s unmuteallBytes =
      some ({ s with muted_players := ∅ }, ["All players un-muted."]) := by
  have ht : trimEnd unmuteallBytes = unmuteallBytes := by decide
  unfold handle_chat_command
  simp [ht]
  rw [if_neg (by decide), if_neg (by decide), if_neg (by decide), if_neg (by decide)]

/-- Invariant propagation along a command sequence: the roster is never
modified and every id entering the mute set comes from the roster. -/
theorem runChatCommands_inv (cmds : List (List Nat)) (s s' : GHState)
    (h : runChatCommands s cmds = some s') :
    s'.info = s.info ∧
      ∀ id ∈ s'.muted_players, id ∈ s.muted_players ∨ inRoster s id := by
  induction cmds generalizing s with
  | nil =>
    simp only [runChatCommands, Option.some.injEq] at h
    subst h
    exact ⟨rfl, fun id hid => Or.inl hid⟩
  | cons c cs ih =>
    simp only [runChatCommands] at h
    split at h
    · rename_i s1 msgs hcc
      obtain ⟨hinfo1, -, -, -, hmut1⟩ := handle_chat_command_state s c s1 msgs hcc
      obtain ⟨hinfo2, hmut2⟩ := ih s1 h
      refine ⟨hinfo2.trans hinfo1, fun id hid => ?_⟩
      rcases hmut2 id hid with h1 | h2
      · exact hmut1 id h1
      · obtain ⟨pi, hpi, hpid⟩ := h2
        rw [hinfo1] at hpi
        exact Or.inr ⟨pi, hpi, hpid⟩
    · exact absurd h (by simp)

/-- A fallible operation errors only as a send failure whose code is the
next outcome in the environment list. -/
theorem fallibleOp_error (outs : List (Option Nat)) (e : SessionError)
    (h : fallibleOp outs = Except.error e) :
    ∃ code, e = SessionError.sendFailed code ∧ some code ∈ outs := by
  unfold fallibleOp at h
  split at h
  · exact absurd h (by simp)
  · exact absurd h (by simp)
  · rename_i code rest
    rw [Except.error.injEq] at h
    exact ⟨code, h.symm, List.mem_cons_self _ _⟩

/-- A successful fallible operation leaves a suffix of the environment
list unconsumed. -/
theorem fallibleOp_ok (outs outs' : List (Option Nat))
    (h : fallibleOp outs = Except.ok outs') : outs' <:+ outs := by
  unfold fallibleOp at h
  split at h
  · rw [Except.ok.injEq] at h
    subst h
    exact List.suffix_refl []
  · rename_i rest
    rw [Except.ok.injEq] at h
    subst h
    exact List.suffix_cons none rest
  · exact absurd h (by simp)

/-- Mapping over an `Except` preserves its error. -/
theorem except_map_error {α β : Type} {f : α → β} {x : Except SessionError α}
    {e : SessionError} (h : x.map f = Except.error e) : x = Except.error e := by
  cases x <;> simp_all [Except.map]

/-- Mapping over an `Except` that yields a success exposes the
pre-image. -/
theorem except_map_ok {α β : Type} {f : α → β} {x : Except SessionError α}
    {b : β} (h : x.map f = Except.ok b) : ∃ a, x = Except.ok a ∧ f a = b := by
  cases x <;> simp_all [Except.map]

/-- Errors of the fallible local-frame handler: a decode failure on a
`ChatToHost` frame with undecodable payload, or a send failure drawn
from the environment outcomes. -/
theorem hgpf_error (s : GHState) (p : Packet) (e : SessionError) (outs : List (Option Nat))
    (h : handle_game_packet_fallible s p outs = some (Except.error e)) :
    (e = SessionError.decodeFailed ∧ p.typeId = chatToHostTypeId ∧ decodeChat p = none) ∨
    (∃ code, e = SessionError.sendFailed code ∧ some code ∈ outs) := by
  unfold handle_game_packet_fallible at h
  repeat' split at h
  all_goals try simp_all
  all_goals first
    | exact Or.inr (fallibleOp_error outs e (except_map_error h))
    | exact fallibleOp_error outs e (except_map_error h)

/-- A successful fallible local-frame handler consumes outcomes from the
front: the rest is a suffix. -/
theorem hgpf_ok (s : GHState) (p : Packet) (s' : GHState) (outs outs' : List (Option Nat))
    (h : handle_game_packet_fallible s p outs = some (Except.ok (s', outs'))) :
    outs' <:+ outs := by
  unfold handle_game_packet_fallible at h
  repeat' split at h
  all_goals try simp_all
  all_goals
    obtain ⟨a, ha, hfa⟩ := except_map_ok h
  all_goals
    have h2 : a = outs' := congrArg Prod.snd hfa
  all_goals subst h2
  all_goals exact fallibleOp_ok outs a ha

/-- Errors of the fallible node-frame handler: a decode failure on a
`ChatFromHost` frame with undecodable payload, or a send failure drawn
from the environment outcomes. -/
theorem hiwf_error (s : GHState) (p : Packet) (e : SessionError) (outs : List (Option Nat))
    (h : handle_incoming_w3gs_fallible s p outs = Except.error e) :
    (e = SessionError.decodeFailed ∧ p.typeId = chatFromHostTypeId ∧ decodeChat p = none) ∨
    (∃ code, e = SessionError.sendFailed code ∧ some code ∈ outs) := by
  unfold handle_incoming_w3gs_fallible at h
  repeat' split at h
  all_goals try simp_all
  all_goals first
    | exact Or.inr (fallibleOp_error outs e (except_map_error h))
    | exact fallibleOp_error outs e (except_map_error h)

/-- A successful fallible node-frame handler consumes outcomes from the
front: the rest is a suffix. -/
theorem hiwf_ok (s : GHState) (p : Packet) (s' : GHState) (outs outs' : List (Option Nat))
    (h : handle_incoming_w3gs_fallible s p outs = Except.ok (s', outs')) :
    outs' <:+ outs := by
  unfold handle_incoming_w3gs_fallible at h
  repeat' split at h
  all_goals try simp_all
  all_goals
    obtain ⟨a, ha, hfa⟩ := except_map_ok h
  all_goals
    have h2 : a = outs' := congrArg Prod.snd hfa
  all_goals subst h2
  all_goals exact fallibleOp_ok outs a ha

/-- Error provenance of the fallible run loop, by induction over the
event trace: cancellation errors require a channel-close event, decode
errors an undecodable chat-typed frame, send errors a failure outcome in
the environment, and normal results are Disconnected or Leave. -/
theorem runLoopFallible_error_sources (evs : List Event) (s : GHState)
    (outs : List (Option Nat)) :
    (∀ m, runLoopFallible s evs outs = Outcome.failed (SessionError.taskCancelled m) →
       Event.statusClosed ∈ evs ∨ Event.nodeClosed ∈ evs) ∧
    (runLoopFallible s evs outs = Outcome.failed SessionError.decodeFailed →
       ∃ p, ((Event.localPkt p ∈ evs ∧ p.typeId = chatToHostTypeId) ∨
             (Event.nodePkt p ∈ evs ∧ p.typeId = chatFromHostTypeId)) ∧
         decodeChat p = none) ∧
    (∀ code, runLoopFallible s evs outs = Outcome.failed (SessionError.sendFailed code) →
       some code ∈ outs) ∧
    (∀ r, runLoopFallible s evs outs = Outcome.result r →
       r = GameResult.Disconnected ∨ r = GameResult.Leave) := by
  induction evs generalizing s outs with
  | nil => simp [runLoopFallible]
  | cons e rest ih =>
    cases e with
    | localPkt p =>
      by_cases hla : p.typeId = leaveAckTypeId
      · refine ⟨?_, ?_, ?_, ?_⟩
        · intro m hm
          simp only [runLoopFallible, if_pos hla] at hm
          split at hm
          · rename_i e1 h1
            obtain ⟨c, hc, -⟩ := fallibleOp_error _ e1 h1
            simp [hc] at hm
          · split at hm
            · rename_i e2 h2
              obtain ⟨c, hc, -⟩ := fallibleOp_error _ e2 h2
              simp [hc] at hm
            · split at hm
              · rename_i e3 h3
                obtain ⟨c, hc, -⟩ := fallibleOp_error _ e3 h3
                simp [hc] at hm
              · simp at hm
        · intro hm
          simp only [runLoopFallible, if_pos hla] at hm
          split at hm
          · rename_i e1 h1
            obtain ⟨c, hc, -⟩ := fallibleOp_error _ e1 h1
            simp [hc] at hm
          · split at hm
            · rename_i e2 h2
              obtain ⟨c, hc, -⟩ := fallibleOp_error _ e2 h2
              simp [hc] at hm
            · split at hm
              · rename_i e3 h3
                obtain ⟨c, hc, -⟩ := fallibleOp_error _ e3 h3
                simp [hc] at hm
              · simp at hm
        · intro code hm
          simp only [runLoopFallible, if_pos hla] at hm
          split at hm
          · rename_i e1 h1
            obtain ⟨c, hc, hmem⟩ := fallibleOp_error _ e1 h1
            simp only [Outcome.failed.injEq] at hm
            rw [hm, SessionError.sendFailed.injEq] at hc
            subst hc
            exact (List.tail_suffix outs).subset hmem
          · rename_i o2 h1
            have ho2 : o2 <:+ outs := (fallibleOp_ok _ o2 h1).trans (List.tail_suffix outs)
            split at hm
            · rename_i e2 h2
              obtain ⟨c, hc, hmem⟩ := fallibleOp_error _ e2 h2
              simp only [Outcome.failed.injEq] at hm
              rw [hm, SessionError.sendFailed.injEq] at hc
              subst hc
              exact ho2.subset hmem
            · rename_i o3 h2
              have ho3 : o3 <:+ outs := (fallibleOp_ok _ o3 h2).trans ho2
              split at hm
              · rename_i e3 h3
                obtain ⟨c, hc, hmem⟩ := fallibleOp_error _ e3 h3
                simp only [Outcome.failed.injEq] at hm
                rw [hm, SessionError.sendFailed.injEq] at hc
                subst hc
                exact ho3.subset hmem
              · simp at hm
        · intro r hm
          simp only [runLoopFallible, if_pos hla] at hm
          split at hm
          · simp at hm
          · split at hm
            · simp at hm
            · split at hm
              · simp at hm
              · simp only [Outcome.result.injEq] at hm
                exact Or.inr hm.symm
      · refine ⟨?_, ?_, ?_, ?_⟩
        · intro m hm
          simp only [runLoopFallible, if_neg hla] at hm
          split at hm
          · simp at hm
          · rename_i e' herr
            simp only [Outcome.failed.injEq] at hm
            rcases hgpf_error s p e' outs herr with ⟨he, -, -⟩ | ⟨c, hc, -⟩
            · rw [hm] at he
              simp at he
            · rw [hm] at hc
              simp at hc
          · rename_i s' outs' hok
            rcases ((ih s' outs').1 m hm) with h1 | h1 <;> simp [List.mem_cons, h1]
        · intro hm
          simp only [runLoopFallible, if_neg hla] at hm
          split at hm
          · simp at hm
          · rename_i e' herr
            simp only [Outcome.failed.injEq] at hm
            subst hm
            rcases hgpf_error s p _ outs herr with ⟨-, hty, hdec⟩ | ⟨c, hc, -⟩
            · exact ⟨p, Or.inl ⟨List.mem_cons_self _ _, hty⟩, hdec⟩
            · simp at hc
          · rename_i s' outs' hok
            obtain ⟨q, hq, hqd⟩ := (ih s' outs').2.1 hm
            exact ⟨q, hq.imp
              (fun h1 => ⟨List.mem_cons_of_mem _ h1.1, h1.2⟩)
              (fun h1 => ⟨List.mem_cons_of_mem _ h1.1, h1.2⟩), hqd⟩
        · intro code hm
          simp only [runLoopFallible, if_neg hla] at hm
          split at hm
          · simp at hm
          · rename_i e' herr
            simp only [Outcome.failed.injEq] at hm
            subst hm
            rcases hgpf_error s p _ outs herr with ⟨he, -, -⟩ | ⟨c, hc, hmem⟩
            · simp at he
            · rw [SessionError.sendFailed.injEq] at hc
              subst hc
              exact hmem
          · rename_i s' outs' hok
            exact (hgpf_ok s p s' outs outs' hok).subset ((ih s' outs').2.2.1 code hm)
        · intro r hm
          simp only [runLoopFallible, if_neg hla] at hm
          split at hm
          · simp at hm
          · simp at hm
          · rename_i s' outs' hok
            exact (ih s' outs').2.2.2 r hm
    | localClosed => simp [runLoopFallible]
    | localErr => simp [runLoopFallible]
    | statusUpdate st =>
      refine ⟨?_, ?_, ?_, ?_⟩
      · intro m hm
        simp only [runLoopFallible] at hm
        rcases (ih s outs).1 m hm with h1 | h1 <;> simp [List.mem_cons, h1]
      · intro hm
        simp only [runLoopFallible] at hm
        obtain ⟨q, hq, hqd⟩ := (ih s outs).2.1 hm
        exact ⟨q, hq.imp
          (fun h1 => ⟨List.mem_cons_of_mem _ h1.1, h1.2⟩)
          (fun h1 => ⟨List.mem_cons_of_mem _ h1.1, h1.2⟩), hqd⟩
      · intro code hm
        simp only [runLoopFallible] at hm
        exact (ih s outs).2.2.1 code hm
      · intro r hm
        simp only [runLoopFallible] at hm
        exact (ih s outs).2.2.2 r hm
    | statusClosed => simp [runLoopFallible]
    | nodePkt p =>
      refine ⟨?_, ?_, ?_, ?_⟩
      · intro m hm
        simp only [runLoopFallible] at hm
        split at hm
        · rename_i e' herr
          simp only [Outcome.failed.injEq] at hm
          rcases hiwf_error s p e' outs herr with ⟨he, -, -⟩ | ⟨c, hc, -⟩
          · rw [hm] at he
            simp at he
          · rw [hm] at hc
            simp at hc
        · rename_i s' outs' hok
          rcases ((ih s' outs').1 m hm) with h1 | h1 <;> simp [List.mem_cons, h1]
      · intro hm
        simp only [runLoopFallible] at hm
        split at hm
        · rename_i e' herr
          simp only [Outcome.failed.injEq] at hm
          subst hm
          rcases hiwf_error s p _ outs herr with ⟨-, hty, hdec⟩ | ⟨c, hc, -⟩
          · exact ⟨p, Or.inr ⟨List.mem_cons_self _ _, hty⟩, hdec⟩
          · simp at hc
        · rename_i s' outs' hok
          obtain ⟨q, hq, hqd⟩ := (ih s' outs').2.1 hm
          exact ⟨q, hq.imp
            (fun h1 => ⟨List.mem_cons_of_mem _ h1.1, h1.2⟩)
            (fun h1 => ⟨List.mem_cons_of_mem _ h1.1, h1.2⟩), hqd⟩
      · intro code hm
        simp only [runLoopFallible] at hm
        split at hm
        · rename_i e' herr
          simp only [Outcome.failed.injEq] at hm
          subst hm
          rcases hiwf_error s p _ outs herr with ⟨he, -, -⟩ | ⟨c, hc, hmem⟩
          · simp at he
          · rw [SessionError.sendFailed.injEq] at hc
            subst hc
            exact hmem
        · rename_i s' outs' hok
          exact (hiwf_ok s p s' outs outs' hok).subset ((ih s' outs').2.2.1 code hm)
      · intro r hm
        simp only [runLoopFallible] at hm
        split at hm
        · simp at hm
        · rename_i s' outs' hok
          exact (ih s' outs').2.2.2 r hm
    | nodeClosed => simp [runLoopFallible]

/-! ## Claim theorems -/

/-- C1 (counterexample): three concrete inputs on which the claim as
stated fails.  `mute 1` — the local player's own slot id — is added to
the mute set with a confirmation reply instead of an error plus candidate
list; `mute 2` with id 2 already muted replies with a confirmation
instead of an error; `mute x` with an unparsable id replies only with an
invalid-syntax line, without the candidate list the claim requires. -/
theorem mute_id_claim_counterexample :
    (handle_chat_command st2 (strBytes ("mute 1")) = some (st2mutedSelf, ["Muted: Alice"]) ∧
      info2.slot_info.slot_player_id = 1 ∧ st2mutedSelf.muted_players ≠ st2.muted_players) ∧
    handle_chat_command st2m (strBytes ("mute 2")) = some (st2m, ["Muted: Bob"]) ∧
    handle_chat_command st2 (strBytes ("mute x")) = some (st2, ["Invalid syntax. Example: !mute 1"]) :=
  ⟨⟨by decide, by decide, by decide⟩, by decide, by decide⟩

/-- C1 (amended): for every chat command of the form `mute <id>`, the id
is added to `muted_players` (with a confirmation reply naming the player)
exactly when `<id>` parses as a numeric u8 found in the roster — even
when it is the local player's own slot id or already muted; a parsed id
absent from the roster produces the invalid-player-id reply plus the
current unmuted-candidate list and leaves `muted_players` unchanged; an
argument that does not parse as a u8 produces only the invalid-syntax
reply (no candidate list) and leaves `muted_players` unchanged. -/
theorem mute_with_id_argument (s : GHState) (cmd u rest : List Nat)
    (ht : trimEnd cmd = muteBytes ++ u)
    (hne : u ≠ [])
    (hnall : muteBytes ++ u ≠ muteallBytes)
    (hslice : sliceFrom 5 (muteBytes ++ u) = some rest) :
    (∀ id info, parseU8 rest = some id → findPlayer s id = some info →
       handle_chat_command s cmd =
         some ({ s with muted_players := insert id s.muted_players },
               ["Muted: " ++ info.name])) ∧
    (∀ id, parseU8 rest = some id → findPlayer s id = none →
       handle_chat_command s cmd =
         some (s, candidateLines ("Invalid player id. Players:") (muteTargets s))) ∧
    (parseU8 rest = none →
       handle_chat_command s cmd = some (s, ["Invalid syntax. Example: !mute 1"])) := by
  have hpre : muteBytes.isPrefixOf (muteBytes ++ u) = true := by
    simp [muteBytes, List.isPrefixOf]
  have hmb : muteBytes ++ u ≠ muteBytes := by
    intro he
    exact hne (List.append_cancel_left (he.trans (List.append_nil muteBytes).symm))
  have hhelp : muteBytes ++ u ≠ helpBytes := by simp [muteBytes, helpBytes]
  have hflo : muteBytes ++ u ≠ floBytes := by simp [muteBytes, floBytes]
  have htick : muteBytes ++ u ≠ tickBytes := by simp [muteBytes, tickBytes]
  have humb : muteBytes ++ u ≠ unmuteallBytes := by simp [muteBytes, unmuteallBytes]
  refine ⟨?_, ?_, ?_⟩
  · intro id info hid hfind
    unfold handle_chat_command
    simp [ht, hhelp, hflo, htick, hnall, humb, hpre, hmb, hslice, hid, hfind]
  · intro id hid hfind
    unfold handle_chat_command
    simp [ht, hhelp, hflo, htick, hnall, humb, hpre, hmb, hslice, hid, hfind]
  · intro hid
    unfold handle_chat_command
    simp [ht, hhelp, hflo, htick, hnall, humb, hpre, hmb, hslice, hid]

/-- C1 (witness): `mute 2` on the fresh two-player state mutes Bob with
the confirmation reply. -/
theorem mute_with_id_argument_witness :
    trimEnd (strBytes ("mute 2")) = muteBytes ++ [0x20, 0x32] ∧
    parseU8 [0x32] = some 2 ∧
    handle_chat_command st2 (strBytes ("mute 2")) =
      some ({ st2 with muted_players := insert 2 st2.muted_players }, ["Muted: " ++ "Bob"]) :=
  ⟨by decide, by decide,
   (mute_with_id_argument st2 (strBytes ("mute 2")) [0x20, 0x32] [0x32] (by decide) (by decide)
     (by decide) (by decide)).1 2 { slot_player_id := 2, name := "Bob" } (by decide) (by decide)⟩

/-- C2 (counterexample): two runs returning error values other than the
fatal cancellation, refuting the claim as stated — a `ChatToHost` frame
with undecodable payload returns the decode error, and a failing node
send while forwarding a keepalive frame returns that send's error. -/
theorem session_errors_counterexample :
    runLoopFallible st2 [Event.localPkt badChatPacket] [] =
      Outcome.failed SessionError.decodeFailed ∧
    runLoopFallible st2 [Event.nodePkt kaPacket] [some 7] =
      Outcome.failed (SessionError.sendFailed 7) := by
  constructor <;> decide

/-- C2 (amended): the session returns, besides the normal results
Disconnected and Leave, only these error values: the distinguished
fatal-cancellation error, returned only when the status channel or the
node-frame channel closes (and returned immediately when such a closure
is the next event serviced); a decode error, returned only when a
processed chat-typed frame — a `ChatToHost` frame from the client or a
`ChatFromHost` frame from the node — has an undecodable payload; and an
error propagated by `?` from a transport send/flush or the leave
handshake's encode, returned only when the environment fails one of
those operations. -/
theorem session_errors_characterized (s : GHState) (evs rest : List Event)
    (outs : List (Option Nat)) :
    (∀ m, runLoopFallible s evs outs = Outcome.failed (SessionError.taskCancelled m) →
       Event.statusClosed ∈ evs ∨ Event.nodeClosed ∈ evs) ∧
    (runLoopFallible s evs outs = Outcome.failed SessionError.decodeFailed →
       ∃ p, ((Event.localPkt p ∈ evs ∧ p.typeId = chatToHostTypeId) ∨
             (Event.nodePkt p ∈ evs ∧ p.typeId = chatFromHostTypeId)) ∧
         decodeChat p = none) ∧
    (∀ code, runLoopFallible s evs outs = Outcome.failed (SessionError.sendFailed code) →
       some code ∈ outs) ∧
    (∀ r, runLoopFallible s evs outs = Outcome.result r →
       r = GameResult.Disconnected ∨ r = GameResult.Leave) ∧
    runLoopFallible s (Event.statusClosed :: rest) outs =
      Outcome.failed (SessionError.taskCancelled ("game status tx dropped")) ∧
    runLoopFallible s (Event.nodeClosed :: rest) outs =
      Outcome.failed (SessionError.taskCancelled ("w3g tx dropped")) :=
  ⟨(runLoopFallible_error_sources evs s outs).1,
   (runLoopFallible_error_sources evs s outs).2.1,
   (runLoopFallible_error_sources evs s outs).2.2.1,
   (runLoopFallible_error_sources evs s outs).2.2.2,
   by simp [runLoopFallible],
   by simp [runLoopFallible]⟩

/-- C2 (witness): a trace consisting of the node channel closing makes
the session fail with the fatal-cancellation error, and the theorem
locates the closing event in the trace. -/
theorem session_errors_characterized_witness :
    Event.statusClosed ∈ ([Event.nodeClosed] : List Event) ∨
      Event.nodeClosed ∈ ([Event.nodeClosed] : List Event) :=
  (session_errors_characterized st2 [Event.nodeClosed] [] []).1 ("w3g tx dropped") (by decide)

/-- C3: scoped chat from the local player that parses as a command whose
trimmed text matches no recognized keyword (not `help`, `flo` or `tick`,
and not prefixed by `mute` or `unmute`, which also rules out `muteall`
and `unmuteall`) produces exactly the single reply "Unknown command" and
is not forwarded to the node. -/
theorem unknown_command_not_forwarded (s : GHState) (p : Packet) (body : ChatBody)
    (scope : Nat) (text cmd : List Nat)
    (hty : p.typeId = chatToHostTypeId)
    (hdec : decodeChat p = some body)
    (hmsg : body.message = ChatMessage.scoped scope text)
    (hparse : parse_chat_command text = some cmd)
    (h1 : trimEnd cmd ≠ helpBytes) (h2 : trimEnd cmd ≠ floBytes)
    (h3 : trimEnd cmd ≠ tickBytes)
    (h4 : muteBytes.isPrefixOf (trimEnd cmd) = false)
    (h5 : unmuteBytes.isPrefixOf (trimEnd cmd) = false) :
    handle_game_packet s p =
      some (Except.ok (s,
        [Effect.spawnChats s.info.slot_info.slot_player_id ["Unknown command"]])) := by
  have hma : trimEnd cmd ≠ muteallBytes := by
    intro he
    rw [he] at h4
    exact absurd h4 (by decide)
  have huma : trimEnd cmd ≠ unmuteallBytes := by
    intro he
    rw [he] at h5
    exact absurd h5 (by decide)
  have hcc : handle_chat_command s cmd = some (s, ["Unknown command"]) := by
    unfold handle_chat_command
    simp [h1, h2, h3, h4, h5, hma, huma]
  unfold handle_game_packet
  rw [hty]
  simp [chatToHostTypeId, hdec, hmsg, hparse, hcc]

/-- C3 (witness): the scoped chat text "!hello" yields exactly the
"Unknown command" reply and produces no node-send effect. -/
theorem unknown_command_not_forwarded_witness :
    parse_chat_command (strBytes ("!hello")) = some (strBytes ("hello")) ∧
    handle_game_packet st2 unknownCmdPacket =
      some (Except.ok (st2,
        [Effect.spawnChats st2.info.slot_info.slot_player_id ["Unknown command"]])) :=
  ⟨by decide, unknown_command_not_forwarded st2 unknownCmdPacket
    { from_player := 1, message := ChatMessage.scoped 0 (strBytes ("!hello")) } 0
    (strBytes ("!hello")) (strBytes ("hello")) rfl rfl rfl (by decide) (by decide) (by decide)
    (by decide) (by decide) (by decide)⟩

/-- C4: on the command texts "muteé" (byte 5 inside the two-byte encoding
of é) and "unmuteé" (byte 7 likewise), the interpreter's fixed-index byte
slice falls on a non-boundary and the interpreter panics instead of
producing a reply. -/
theorem mute_slice_panics :
    handle_chat_command st2 (strBytes ("muteé")) = none ∧
    handle_chat_command st2 (strBytes ("unmuteé")) = none := by
  constructor <;> decide

/-- C5: a `ChatFromHost` frame is forwarded without any decode attempt
(even with an undecodable payload) while the mute set is empty; with a
non-empty mute set it is decoded, dropped exactly when it carries scoped
chat from a muted player, and forwarded unchanged otherwise. -/
theorem chatFromHost_mute_filter (s : GHState) (p : Packet) (h : p.typeId = chatFromHostTypeId) :
    (s.muted_players = ∅ → handle_incoming_w3gs s p = Except.ok (s, [Effect.sendLocal p])) ∧
    (∀ body, s.muted_players ≠ ∅ → decodeChat p = some body →
      (body.message.isScoped = true → body.from_player ∈ s.muted_players →
        handle_incoming_w3gs s p = Except.ok (s, [])) ∧
      (body.message.isScoped = true → body.from_player ∉ s.muted_players →
        handle_incoming_w3gs s p = Except.ok (s, [Effect.sendLocal p])) ∧
      (body.message.isScoped = false →
        handle_incoming_w3gs s p = Except.ok (s, [Effect.sendLocal p]))) := by
  refine ⟨?_, ?_⟩
  · intro he
    simp [handle_incoming_w3gs, h, chatFromHostTypeId, outgoingKeepAliveTypeId,
      incomingActionTypeId, outgoingActionTypeId, he]
  · intro body hne hdec
    obtain ⟨fp, msg⟩ := body
    refine ⟨?_, ?_, ?_⟩
    · intro hsc hmem
      cases msg <;> simp_all [handle_incoming_w3gs, h, ChatMessage.isScoped, chatFromHostTypeId,
        outgoingKeepAliveTypeId, incomingActionTypeId, outgoingActionTypeId]
    · intro hsc hmem
      cases msg <;> simp_all [handle_incoming_w3gs, h, ChatMessage.isScoped, chatFromHostTypeId,
        outgoingKeepAliveTypeId, incomingActionTypeId, outgoingActionTypeId]
    · intro hsc
      cases msg <;> simp_all [handle_incoming_w3gs, h, ChatMessage.isScoped, chatFromHostTypeId,
        outgoingKeepAliveTypeId, incomingActionTypeId, outgoingActionTypeId]

/-- C5 (witness): with player 2 muted, a scoped chat frame from player 2
is dropped — no send to the local client. -/
theorem chatFromHost_mute_filter_witness :
    cfhPacket.typeId = chatFromHostTypeId ∧ st2m.muted_players ≠ ∅ ∧
    decodeChat cfhPacket = some cfhBody ∧ cfhBody.message.isScoped = true ∧
    cfhBody.from_player ∈ st2m.muted_players ∧
    handle_incoming_w3gs st2m cfhPacket = Except.ok (st2m, []) :=
  ⟨rfl, by decide, rfl, rfl, by decide,
   ((chatFromHost_mute_filter st2m cfhPacket rfl).2 cfhBody (by decide) rfl).1 rfl (by decide)⟩

/-- C6: a Leave-acknowledgement frame from the local client produces
exactly one "Left" slot-status report, then one Leave-acknowledgement
echo, then one flush, and the session terminates with Leave; the
remaining trace is never processed (the result does not depend on it). -/
theorem leaveAck_handshake (s : GHState) (p : Packet) (rest : List Event)
    (h : p.typeId = leaveAckTypeId) :
    runLoop s (Event.localPkt p :: rest) =
      (Outcome.result GameResult.Leave,
       [Effect.reportSlotStatus SlotClientStatus.Left,
        Effect.sendLocal leaveAckPacket, Effect.flushLocal]) := by
  simp [runLoop, h]

/-- C6 (witness): the handshake on a concrete trace with a pending event
after the Leave-acknowledgement. -/
theorem leaveAck_handshake_witness :
    leaveAckPacket.typeId = leaveAckTypeId ∧
    runLoop st2 [Event.localPkt leaveAckPacket, Event.nodeClosed] =
      (Outcome.result GameResult.Leave,
       [Effect.reportSlotStatus SlotClientStatus.Left,
        Effect.sendLocal leaveAckPacket, Effect.flushLocal]) :=
  ⟨rfl, leaveAck_handshake st2 leaveAckPacket [Event.nodeClosed] rfl⟩

/-- C7: when the local-client transport closes or reports a receive
error, the session terminates with Disconnected as a normal (Ok) result,
performing no further effects. -/
theorem disconnected_on_local_stream_loss (s : GHState) (rest : List Event) :
    runLoop s (Event.localClosed :: rest) = (Outcome.result GameResult.Disconnected, []) ∧
    runLoop s (Event.localErr :: rest) = (Outcome.result GameResult.Disconnected, []) := by
  constructor <;> simp [runLoop]

/-- C8: `tick_ack` is incremented exactly on keepalive-acknowledgement
frames from the local client and `tick_recv` exactly on Action frames
from the node; neither handler touches the other counter. -/
theorem tick_counter_increments (s : GHState) (p : Packet) (out : GHState × List Effect) :
    (handle_game_packet s p = some (Except.ok out) →
      out.1.tick_ack = (if p.typeId = outgoingKeepAliveTypeId then s.tick_ack + 1 else s.tick_ack) ∧
      out.1.tick_recv = s.tick_recv) ∧
    (handle_incoming_w3gs s p = Except.ok out →
      out.1.tick_recv = (if p.typeId = incomingActionTypeId then s.tick_recv + 1 else s.tick_recv) ∧
      out.1.tick_ack = s.tick_ack) := by
  constructor
  · intro h
    unfold handle_game_packet at h
    repeat' split at h
    all_goals try (simp only [Option.some.injEq, Except.ok.injEq] at h; subst h)
    all_goals try simp_all [chatToHostTypeId, outgoingKeepAliveTypeId, incomingActionTypeId,
      outgoingActionTypeId, chatFromHostTypeId, leaveAckTypeId]
    rename_i s' msgs hty hdec hmsg hparse hcc
    obtain ⟨-, -, hrecv, hack, -⟩ := handle_chat_command_state s _ s' msgs hcc
    exact ⟨hack, hrecv⟩
  · intro h
    unfold handle_incoming_w3gs at h
    repeat' split at h
    all_goals try (simp only [Except.ok.injEq] at h; subst h)
    all_goals simp_all [chatToHostTypeId, outgoingKeepAliveTypeId, incomingActionTypeId,
      outgoingActionTypeId, chatFromHostTypeId, leaveAckTypeId]

/-- C8 (witness): a keepalive-acknowledgement from the local client bumps
`tick_ack` from 0 to 1 and leaves `tick_recv` at 0. -/
theorem tick_counter_increments_witness :
    handle_game_packet st2 kaPacket = some (Except.ok (st2ka, [Effect.sendNode kaPacket])) ∧
    st2ka.tick_ack =
      (if kaPacket.typeId = outgoingKeepAliveTypeId then st2.tick_ack + 1 else st2.tick_ack) ∧
    st2ka.tick_recv = st2.tick_recv :=
  ⟨by decide, (tick_counter_increments st2 kaPacket (st2ka, [Effect.sendNode kaPacket])).1 (by decide)⟩

/-- C9: executing `muteall` twice yields the same mute set as executing
it once, and `unmuteall` always yields the empty mute set. -/
theorem muteall_idempotent_unmuteall_empty (s s1 s2 s3 : GHState)
    (m1 m2 m3 : List String) :
    (handle_chat_command s muteallBytes = some (s1, m1) →
      handle_chat_command s1 muteallBytes = some (s2, m2) →
      s2.muted_players = s1.muted_players) ∧
    (handle_chat_command s unmuteallBytes = some (s3, m3) → s3.muted_players = ∅) := by
  constructor
  · intro h1 h2
    rw [handle_muteall] at h1 h2
    simp only [Option.some.injEq, Prod.mk.injEq] at h1 h2
    obtain ⟨hs1, -⟩ := h1
    obtain ⟨hs2, -⟩ := h2
    subst hs1
    subst hs2
    simp [muteallTargets_congr, Finset.union_assoc]
  · intro h3
    rw [handle_unmuteall] at h3
    simp only [Option.some.injEq, Prod.mk.injEq] at h3
    obtain ⟨hs3, -⟩ := h3
    subst hs3
    rfl

/-- C9 (witness): on the two-player state, `muteall` reaches the mute set
containing Bob, a second `muteall` leaves it unchanged, and `unmuteall`
yields the empty set. -/
theorem muteall_idempotent_unmuteall_empty_witness :
    handle_chat_command st2 muteallBytes = some (st2m, ["All players muted."]) ∧
    handle_chat_command st2m muteallBytes = some (st2m, ["All players muted."]) ∧
    st2m.muted_players = st2m.muted_players ∧
    handle_chat_command st2 unmuteallBytes = some (st2, ["All players un-muted."]) ∧
    st2.muted_players = ∅ :=
  ⟨by decide, by decide,
   (muteall_idempotent_unmuteall_empty st2 st2m st2m st2
     (["All players muted."]) (["All players muted."]) (["All players un-muted."])).1
     (by decide) (by decide),
   by decide,
   (muteall_idempotent_unmuteall_empty st2 st2m st2m st2
     (["All players muted."]) (["All players muted."]) (["All players un-muted."])).2
     (by decide)⟩

/-- C10: after any sequence of chat commands starting from the freshly
constructed session, every id in `muted_players` is the slot player id of
some roster entry. -/
theorem muted_players_subset_roster (info : LanGameInfo) (node : NodeInfo)
    (cmds : List (List Nat)) (s' : GHState)
    (h : runChatCommands (initialState info node) cmds = some s') :
    ∀ id ∈ s'.muted_players, ∃ pi ∈ info.slot_info.player_infos, pi.slot_player_id = id := by
  intro id hid
  obtain ⟨-, hmut⟩ := runChatCommands_inv cmds (initialState info node) s' h
  rcases hmut id hid with h1 | h2
  · exact absurd h1 (Finset.not_mem_empty id)
  · exact h2

/-- C10 (witness): after `muteall` on the two-player state the muted id 2
is Bob's roster id. -/
theorem muted_players_subset_roster_witness :
    runChatCommands (initialState info2 node0) [muteallBytes] = some st2m ∧
    2 ∈ st2m.muted_players ∧
    ∃ pi ∈ info2.slot_info.player_infos, pi.slot_player_id = 2 :=
  ⟨by decide, by decide,
   muted_players_subset_roster info2 node0 [muteallBytes] st2m (by decide) 2 (by decide)⟩
